import Mathlib

/-!
Shallow embedding of the dispatch core of the messagebus repository:
the single-message poller (src/receivers/buffer_unordered/sync.rs) and the
batched poller (src/receivers/buffer_unordered_batched/sync.rs).

Each poller is modelled as a labeled transition system whose steps mirror the
poll-driven events of the Rust pipeline:
  rx.map / rx.inspect ∘ chunks / ready_chunks → buffer_unordered(max_parallel)
  → completion loop (error forwarding) → finalize (handler sync) → task exit.
Messages (type `M`) and handler errors (type `E`) are opaque payloads.
Counters are the `AtomicU64` stats fields; in every reachable state they stay
far below 2^64, so they are modelled as `Nat`.
-/

namespace Messagebus

instance {E A : Type} [DecidableEq E] [DecidableEq A] :
    DecidableEq (Except E A) := fun x y =>
  match x, y with
  | .ok a, .ok b =>
      if h : a = b then .isTrue (by rw [h])
      else .isFalse (fun hc => by cases hc; exact h rfl)
  | .error a, .error b =>
      if h : a = b then .isTrue (by rw [h])
      else .isFalse (fun hc => by cases hc; exact h rfl)
  | .ok _, .error _ => .isFalse (fun hc => by cases hc)
  | .error _, .ok _ => .isFalse (fun hc => by cases hc)

/-- Result of awaiting a `tokio::task::spawn_blocking` join handle whose task
returns `Result<(), E>`: either the task itself failed at the join level
(e.g. the closure panicked), or it ran to completion with a handler result. -/
inductive JoinRes (E : Type) where
  | panicked : JoinRes E
  | done : Except E Unit → JoinRes E
deriving DecidableEq, Repr

/-- The error-class bus message `msgs::Error(Arc::new(err))`: a handler or
finalize error wrapped in a shareable envelope before being forwarded. -/
structure ErrorMsg (E : Type) where
  err : E
deriving DecidableEq, Repr

/-- Modelled from the spec: `SendError` lives in `src/receiver.rs`, which is not
under `src/`; per the spec a failed non-blocking enqueue "returns the message
back to the caller inside the error", either because the channel is full or
because it is closed. -/
inductive SendError (M : Type) where
  | full : M → SendError M
  | closed : M → SendError M
deriving DecidableEq, Repr

/-- The message carried back inside a `SendError`. -/
def SendError.msg {M : Type} : SendError M → M
  | .full m => m
  | .closed m => m

/-- Modelled from the spec: the bounded mpsc channel (`src/receivers/mpsc`, not
under `src/`) rejects a non-blocking send when the channel is closed or when the
queue already holds `cap` messages, handing the message back inside the error;
otherwise it appends the message to the queue (FIFO). -/
def mpscTrySend {M : Type} (cap : Nat) (queue : List M) (closedFlag : Bool)
    (m : M) : Except (SendError M) (List M) :=
  if closedFlag then .error (.closed m)
  else if cap ≤ queue.length then .error (.full m)
  else .ok (queue ++ [m])

/-- Modelled from the spec: the Handler Access Cell. `Untyped` (crate root, not
under `src/`) is the type-erased handler container; only its runtime type tag
matters to the dispatch core, so it is modelled as that tag. -/
structure Untyped where
  tag : Nat
deriving DecidableEq, Repr

/-- Modelled from the spec: `Untyped::downcast_sync::<T>()` succeeds exactly
when the contained runtime type matches the requested concrete type `T`
(represented by its tag), and otherwise reports the mismatch. The resolved
handle itself is opaque to the dispatch core. -/
def downcast_sync (expected : Nat) (u : Untyped) : Option Unit :=
  if u.tag = expected then some () else none

/-- The error-forwarding arm of the completion loops and of the finalize block:
`match res { Ok(Err(err)) => { let _ = bus.send(msgs::Error(Arc::new(err))).await; }, _ => () }`.
Exactly a handler-level error appends one wrapped error message to the stream
of messages offered to the bus; a join failure or a success appends nothing. -/
def forwardOnError {E : Type} (r : JoinRes E) (errors : List (ErrorMsg E)) :
    List (ErrorMsg E) :=
  match r with
  | .done (.error e) => errors ++ [ErrorMsg.mk e]
  | _ => errors

/-! ## Single-message variant: src/receivers/buffer_unordered/sync.rs -/

/-- Configuration of the single-message receiver (`BufferUnorderedConfig`). -/
structure BufferUnorderedConfig where
  buffer_size : Nat
  max_parallel : Nat
deriving DecidableEq, Repr

/-- The `BufferUnorderedStats` block (four `AtomicU64` counters). -/
structure BufferUnorderedStats where
  buffer : Nat
  buffer_total : Nat
  parallel : Nat
  parallel_total : Nat
deriving DecidableEq, Repr

/-- State of one single-message receiver plus its poller task.
`queue` is the mpsc channel contents, `inflight` the messages whose
spawn_blocking dispatch futures sit inside `buffer_unordered` and have not yet
completed, `syncCalls` how many times the finalize hook (`handler.sync`) has
run, `exited` whether the poller task has terminated, `downcasts` how many
times the untyped handler cell was downcast, and `errors` the error-class
messages offered to the bus so far. -/
structure BUState (M E : Type) where
  queue : List M
  closedFlag : Bool
  inflight : List M
  syncCalls : Nat
  exited : Bool
  downcasts : Nat
  stats : BufferUnorderedStats
  errors : List (ErrorMsg E)
deriving DecidableEq, Repr

/-- Initial state right after `subscribe` created the channel and the stats
block and the poller performed its startup downcast (sync.rs lines 45-51, 79). -/
def BUState.init (M E : Type) (cfg : BufferUnorderedConfig) : BUState M E :=
  { queue := []
    closedFlag := false
    inflight := []
    syncCalls := 0
    exited := false
    downcasts := 1
    stats :=
      { buffer := 0
        buffer_total := cfg.buffer_size
        parallel := 0
        parallel_total := cfg.max_parallel }
    errors := [] }

/-- `BufferUnorderedSync::try_send` (sync.rs lines 151-160): attempt the
non-blocking channel enqueue; on success bump the `buffer` counter, on failure
pass the error (carrying the message) through unchanged. -/
def BUState.try_send {M E : Type} (cfg : BufferUnorderedConfig)
    (s : BUState M E) (m : M) : Except (SendError M) Unit × BUState M E :=
  match mpscTrySend cfg.buffer_size s.queue s.closedFlag m with
  | .ok q =>
      (.ok (),
        { s with
          queue := q
          stats := { s.stats with buffer := s.stats.buffer + 1 } })
  | .error e => (.error e, s)

/-- Events of the single-message poller pipeline. `trySend` and `close` come
from the receiver handle; `pull` is `buffer_unordered` (with a free slot)
polling `rx.map(...)` and admitting a new spawn_blocking future; `complete`
is one in-flight future finishing (at arbitrary index, with join result `r`;
`busOk` is the ignored outcome of the error-forwarding `bus.send`);
`finalize` is the post-loop `handler.sync` spawn_blocking; `exitEv` is the
poller task ending. -/
inductive BULabel (M E : Type) where
  | trySend : M → BULabel M E
  | close : BULabel M E
  | pull : BULabel M E
  | complete : Nat → JoinRes E → Bool → BULabel M E
  | finalize : JoinRes E → Bool → BULabel M E
  | exitEv : BULabel M E
deriving DecidableEq, Repr

/-- One step of the single-message receiver/poller (sync.rs lines 81-119 for
the poller events, 151-160 for `trySend`, 193-195 for `close`). `none` means
the event is not enabled in state `s`. -/
def BUStep {M E : Type} (cfg : BufferUnorderedConfig) (l : BULabel M E)
    (s : BUState M E) : Option (BUState M E) :=
  match l with
  | .trySend m => some (s.try_send cfg m).2
  | .close => some { s with closedFlag := true }
  | .pull =>
      match s.queue with
      | [] => none
      | m :: rest =>
          if s.inflight.length < cfg.max_parallel then
            some
              { s with
                queue := rest
                inflight := s.inflight ++ [m]
                stats :=
                  { s.stats with
                    buffer := s.stats.buffer - 1
                    parallel := s.stats.parallel + 1 } }
          else none
  | .complete i r _busOk =>
      if i < s.inflight.length then
        some
          { s with
            inflight := s.inflight.eraseIdx i
            stats := { s.stats with parallel := s.stats.parallel - 1 }
            errors := forwardOnError r s.errors }
      else none
  | .finalize r _busOk =>
      match s.closedFlag, s.queue, s.inflight, s.syncCalls with
      | true, [], [], 0 =>
          some { s with syncCalls := 1, errors := forwardOnError r s.errors }
      | _, _, _, _ => none
  | .exitEv =>
      if s.syncCalls = 1 ∧ s.exited = false then
        some { s with exited := true }
      else none

/-- Run a list of events from a state. -/
def BURun {M E : Type} (cfg : BufferUnorderedConfig) :
    List (BULabel M E) → BUState M E → Option (BUState M E)
  | [], s => some s
  | l :: ls, s =>
      match BUStep cfg l s with
      | some s' => BURun cfg ls s'
      | none => none

/-- Reachable states of the single-message receiver. -/
def BUReaches {M E : Type} (cfg : BufferUnorderedConfig) (s : BUState M E) :
    Prop :=
  ∃ ls, BURun cfg ls (BUState.init M E cfg) = some s

/-- Inductive invariant of the single-message receiver: the `buffer` counter
tracks the channel depth, the `parallel` counter tracks the number of
in-flight dispatch futures and never exceeds `max_parallel`, the finalize hook
runs at most once and has run before the task exits, the startup downcast
happened exactly once, and once the finalize hook has run the receiver is
closed and fully drained. -/
structure BUInv {M E : Type} (cfg : BufferUnorderedConfig) (s : BUState M E) :
    Prop where
  buffer_eq : s.stats.buffer = s.queue.length
  parallel_eq : s.stats.parallel = s.inflight.length
  inflight_le : s.inflight.length ≤ cfg.max_parallel
  sync_le : s.syncCalls ≤ 1
  exited_sync : s.exited = true → s.syncCalls = 1
  downcasts_eq : s.downcasts = 1
  buffer_total_eq : s.stats.buffer_total = cfg.buffer_size
  parallel_total_eq : s.stats.parallel_total = cfg.max_parallel
  sync_done : s.syncCalls = 1 →
    s.closedFlag = true ∧ s.queue = [] ∧ s.inflight = []

lemma bu_init_inv {M E : Type} (cfg : BufferUnorderedConfig) :
    BUInv cfg (BUState.init M E cfg) := by
  constructor <;> simp [BUState.init]

lemma bu_step_inv {M E : Type} {cfg : BufferUnorderedConfig}
    {l : BULabel M E} {s s' : BUState M E} (hI : BUInv cfg s)
    (hstep : BUStep cfg l s = some s') : BUInv cfg s' := by
  obtain ⟨h1, h2, h3, h4, h5, h6, h7, h8, h9⟩ := hI
  cases l with
  | trySend m =>
      simp only [BUStep, Option.some.injEq] at hstep
      subst hstep
      by_cases hc : s.closedFlag
      · simpa [BUState.try_send, mpscTrySend, hc] using
          (⟨h1, h2, h3, h4, h5, h6, h7, h8, h9⟩ : BUInv cfg s)
      · by_cases hf : cfg.buffer_size ≤ s.queue.length
        · simpa [BUState.try_send, mpscTrySend, hc, hf] using
            (⟨h1, h2, h3, h4, h5, h6, h7, h8, h9⟩ : BUInv cfg s)
        · refine ⟨?_, ?_, ?_, ?_, ?_, ?_, ?_, ?_, ?_⟩ <;>
            simp [BUState.try_send, mpscTrySend, hc, hf, h1, h2, h3, h4, h6,
              h7, h8]
          · exact h5
          · intro hs
            exact absurd ((h9 hs).1) (by simpa using hc)
  | close =>
      simp only [BUStep, Option.some.injEq] at hstep
      subst hstep
      exact ⟨h1, h2, h3, h4, h5, h6, h7, h8, fun hs => ⟨rfl, (h9 hs).2⟩⟩
  | pull =>
      cases hq : s.queue with
      | nil => simp [BUStep, hq] at hstep
      | cons m rest =>
          by_cases hK : s.inflight.length < cfg.max_parallel
          · simp only [BUStep, hq, hK, if_pos, Option.some.injEq] at hstep
            subst hstep
            refine ⟨?_, ?_, ?_, h4, h5, h6, h7, h8, ?_⟩
            · simp [h1, hq]
            · simp [h2]
            · simpa using hK
            · intro hs
              have hqe := (h9 hs).2.1
              simp [hq] at hqe
          · simp [BUStep, hq, hK] at hstep
  | complete i r busOk =>
      by_cases hi : i < s.inflight.length
      · simp only [BUStep, hi, if_pos, Option.some.injEq] at hstep
        subst hstep
        have hlen := List.length_eraseIdx_add_one hi
        refine ⟨by simp [h1], ?_, ?_, h4, h5, h6, h7, h8, ?_⟩
        · simp only
          omega
        · simp only
          omega
        · intro hs
          obtain ⟨hc, hqe, hin⟩ := h9 hs
          simp [hin] at hi
      · simp [BUStep, hi] at hstep
  | finalize r busOk =>
      simp only [BUStep] at hstep
      split at hstep
      · next hc hqe hin hsy =>
          simp only [Option.some.injEq] at hstep
          subst hstep
          refine ⟨by simp [h1, hqe], by simp [h2, hin], by simp [hin], by simp,
            fun _ => rfl, h6, h7, h8, fun _ => ⟨hc, hqe, hin⟩⟩
      · exact absurd hstep (by simp)
  | exitEv =>
      by_cases hg : s.syncCalls = 1 ∧ s.exited = false
      · simp only [BUStep, hg.1, hg.2, and_self, if_true,
          Option.some.injEq] at hstep
        subst hstep
        exact ⟨h1, h2, h3, by simp, fun _ => rfl, h6, h7, h8,
          fun _ => h9 hg.1⟩
      · simp [BUStep, hg] at hstep

lemma bu_run_inv {M E : Type} {cfg : BufferUnorderedConfig}
    {ls : List (BULabel M E)} {s s' : BUState M E} (hI : BUInv cfg s)
    (hrun : BURun cfg ls s = some s') : BUInv cfg s' := by
  induction ls generalizing s with
  | nil =>
      simp only [BURun, Option.some.injEq] at hrun
      subst hrun
      exact hI
  | cons l ls ih =>
      simp only [BURun] at hrun
      cases hs : BUStep cfg l s with
      | none => simp [hs] at hrun
      | some s1 =>
          rw [hs] at hrun
          exact ih (bu_step_inv hI hs) hrun

lemma bu_reaches_inv {M E : Type} {cfg : BufferUnorderedConfig}
    {s : BUState M E} (h : BUReaches cfg s) : BUInv cfg s := by
  obtain ⟨ls, hrun⟩ := h
  exact bu_run_inv (bu_init_inv cfg) hrun

/-! ## Batched variant: src/receivers/buffer_unordered_batched/sync.rs -/

/-- Configuration of the batched receiver (`BufferUnorderedBatchedConfig`). -/
structure BufferUnorderedBatchedConfig where
  buffer_size : Nat
  max_parallel : Nat
  batch_size : Nat
  when_ready : Bool
deriving DecidableEq, Repr

/-- The `BufferUnorderedBatchedStats` block (six `AtomicU64` counters). -/
structure BufferUnorderedBatchedStats where
  buffer : Nat
  buffer_total : Nat
  parallel : Nat
  parallel_total : Nat
  batch : Nat
  batch_size : Nat
deriving DecidableEq, Repr

/-- State of one batched receiver plus its poller task. Compared to `BUState`:
`acc` is the internal accumulation buffer of the `chunks` / `ready_chunks`
combinator (messages pulled through `rx.inspect` but not yet emitted as a
group), `inflight` holds in-flight groups, and `groups` is the history of all
groups emitted to the dispatch stage, in emission order. -/
structure BUBState (M E : Type) where
  queue : List M
  closedFlag : Bool
  acc : List M
  inflight : List (List M)
  groups : List (List M)
  syncCalls : Nat
  exited : Bool
  downcasts : Nat
  stats : BufferUnorderedBatchedStats
  errors : List (ErrorMsg E)
deriving DecidableEq, Repr

/-- Initial state right after `subscribe` created the channel and stats block
(batched sync.rs lines 45-53) and the poller performed its startup downcast
(line 81). -/
def BUBState.init (M E : Type) (cfg : BufferUnorderedBatchedConfig) :
    BUBState M E :=
  { queue := []
    closedFlag := false
    acc := []
    inflight := []
    groups := []
    syncCalls := 0
    exited := false
    downcasts := 1
    stats :=
      { buffer := 0
        buffer_total := cfg.buffer_size
        parallel := 0
        parallel_total := cfg.max_parallel
        batch := 0
        batch_size := cfg.batch_size }
    errors := [] }

/-- `BufferUnorderedBatchedSync::try_send` (batched sync.rs lines 166-175):
identical to the single-message variant. -/
def BUBState.try_send {M E : Type} (cfg : BufferUnorderedBatchedConfig)
    (s : BUBState M E) (m : M) : Except (SendError M) Unit × BUBState M E :=
  match mpscTrySend cfg.buffer_size s.queue s.closedFlag m with
  | .ok q =>
      (.ok (),
        { s with
          queue := q
          stats := { s.stats with buffer := s.stats.buffer + 1 } })
  | .error e => (.error e, s)

/-- Events of the batched poller pipeline. `pull` is the grouping combinator
(polled from inside `buffer_unordered`, so only with a free parallel slot)
taking one message out of the channel through `rx.inspect`; `formGroup` is the
combinator emitting its accumulated chunk, which the `map` stage immediately
turns into one spawn_blocking dispatch future admitted by `buffer_unordered`.
The remaining events are as in the single-message variant. -/
inductive BUBLabel (M E : Type) where
  | trySend : M → BUBLabel M E
  | close : BUBLabel M E
  | pull : BUBLabel M E
  | formGroup : BUBLabel M E
  | complete : Nat → JoinRes E → Bool → BUBLabel M E
  | finalize : JoinRes E → Bool → BUBLabel M E
  | exitEv : BUBLabel M E
deriving DecidableEq, Repr

/-- Guard for `formGroup`: `chunks(batch_size)` (strict mode) emits its chunk
exactly when it holds `batch_size` messages, or at end of stream (channel
closed and drained) with a nonempty remainder; `ready_chunks(batch_size)`
(ready mode) emits whenever it holds `batch_size` messages or the channel has
nothing more immediately available and at least one message is accumulated. -/
def BUBEmits {M : Type} (cfg : BufferUnorderedBatchedConfig)
    (queue acc : List M) (closedFlag : Bool) : Prop :=
  acc.length ≠ 0 ∧
    (acc.length = cfg.batch_size ∨
      (queue.isEmpty = true ∧ (cfg.when_ready = true ∨ closedFlag = true)))

instance {M : Type} (cfg : BufferUnorderedBatchedConfig) (queue acc : List M)
    (closedFlag : Bool) : Decidable (BUBEmits cfg queue acc closedFlag) :=
  instDecidableAnd

/-- One step of the batched receiver/poller (batched sync.rs lines 82-135 for
the poller events, 166-175 for `trySend`, 213-215 for `close`). `none` means
the event is not enabled in state `s`. -/
def BUBStep {M E : Type} (cfg : BufferUnorderedBatchedConfig)
    (l : BUBLabel M E) (s : BUBState M E) : Option (BUBState M E) :=
  match l with
  | .trySend m => some (s.try_send cfg m).2
  | .close => some { s with closedFlag := true }
  | .pull =>
      match s.queue with
      | [] => none
      | m :: rest =>
          if s.inflight.length < cfg.max_parallel ∧
              s.acc.length < cfg.batch_size then
            some
              { s with
                queue := rest
                acc := s.acc ++ [m]
                stats :=
                  { s.stats with
                    buffer := s.stats.buffer - 1
                    batch := s.stats.batch + 1 } }
          else none
  | .formGroup =>
      if s.inflight.length < cfg.max_parallel ∧
          BUBEmits cfg s.queue s.acc s.closedFlag then
        some
          { s with
            acc := []
            inflight := s.inflight ++ [s.acc]
            groups := s.groups ++ [s.acc]
            stats :=
              { s.stats with
                batch := s.stats.batch - s.acc.length
                parallel := s.stats.parallel + 1 } }
      else none
  | .complete i r _busOk =>
      if i < s.inflight.length then
        some
          { s with
            inflight := s.inflight.eraseIdx i
            stats := { s.stats with parallel := s.stats.parallel - 1 }
            errors := forwardOnError r s.errors }
      else none
  | .finalize r _busOk =>
      match s.closedFlag, s.queue, s.acc, s.inflight, s.syncCalls with
      | true, [], [], [], 0 =>
          some { s with syncCalls := 1, errors := forwardOnError r s.errors }
      | _, _, _, _, _ => none
  | .exitEv =>
      if s.syncCalls = 1 ∧ s.exited = false then
        some { s with exited := true }
      else none

/-- Run a list of events from a state. -/
def BUBRun {M E : Type} (cfg : BufferUnorderedBatchedConfig) :
    List (BUBLabel M E) → BUBState M E → Option (BUBState M E)
  | [], s => some s
  | l :: ls, s =>
      match BUBStep cfg l s with
      | some s' => BUBRun cfg ls s'
      | none => none

/-- Reachable states of the batched receiver. -/
def BUBReaches {M E : Type} (cfg : BufferUnorderedBatchedConfig)
    (s : BUBState M E) : Prop :=
  ∃ ls, BUBRun cfg ls (BUBState.init M E cfg) = some s

/-- Shape of the group history in strict mode (`when_ready = false`): either
every group emitted so far has exactly `batch_size` messages, or the channel
has closed and fully drained and the history is a run of exact `batch_size`
groups followed by one final (possibly partial) group. -/
def StrictHist {M E : Type} (cfg : BufferUnorderedBatchedConfig)
    (s : BUBState M E) : Prop :=
  (∀ g ∈ s.groups, g.length = cfg.batch_size) ∨
  (∃ gs g, s.groups = gs ++ [g] ∧ (∀ g' ∈ gs, g'.length = cfg.batch_size) ∧
    s.closedFlag = true ∧ s.queue = [] ∧ s.acc = [])

/-- Inductive invariant of the batched receiver: `buffer` tracks the channel
depth, `batch` the grouping-combinator accumulation, `parallel` the in-flight
group count (bounded by `max_parallel`); the accumulator and every emitted
group hold between 1 and `batch_size` messages; in strict mode the group
history has the `StrictHist` shape; the finalize hook runs at most once,
before task exit, after full drain; the startup downcast happened once. -/
structure BUBInv {M E : Type} (cfg : BufferUnorderedBatchedConfig)
    (s : BUBState M E) : Prop where
  buffer_eq : s.stats.buffer = s.queue.length
  batch_eq : s.stats.batch = s.acc.length
  parallel_eq : s.stats.parallel = s.inflight.length
  inflight_le : s.inflight.length ≤ cfg.max_parallel
  acc_le : s.acc.length ≤ cfg.batch_size
  groups_ok : ∀ g ∈ s.groups, 0 < g.length ∧ g.length ≤ cfg.batch_size
  strict_hist : cfg.when_ready = false → StrictHist cfg s
  sync_le : s.syncCalls ≤ 1
  exited_sync : s.exited = true → s.syncCalls = 1
  downcasts_eq : s.downcasts = 1
  buffer_total_eq : s.stats.buffer_total = cfg.buffer_size
  parallel_total_eq : s.stats.parallel_total = cfg.max_parallel
  batch_size_eq : s.stats.batch_size = cfg.batch_size
  sync_done : s.syncCalls = 1 →
    s.closedFlag = true ∧ s.queue = [] ∧ s.acc = [] ∧ s.inflight = []

lemma bub_init_inv {M E : Type} (cfg : BufferUnorderedBatchedConfig) :
    BUBInv cfg (BUBState.init M E cfg) := by
  constructor <;> simp [BUBState.init, StrictHist]

lemma bub_step_inv {M E : Type} {cfg : BufferUnorderedBatchedConfig}
    {l : BUBLabel M E} {s s' : BUBState M E} (hI : BUBInv cfg s)
    (hstep : BUBStep cfg l s = some s') : BUBInv cfg s' := by
  obtain ⟨h1, h2, h3, h4, h5, h6, h7, h8, h9, h10, h11, h12, h13, h14⟩ := hI
  cases l with
  | trySend m =>
      simp only [BUBStep, Option.some.injEq] at hstep
      subst hstep
      by_cases hc : s.closedFlag
      · simpa [BUBState.try_send, mpscTrySend, hc] using
          (⟨h1, h2, h3, h4, h5, h6, h7, h8, h9, h10, h11, h12, h13, h14⟩ :
            BUBInv cfg s)
      · by_cases hf : cfg.buffer_size ≤ s.queue.length
        · simpa [BUBState.try_send, mpscTrySend, hc, hf] using
            (⟨h1, h2, h3, h4, h5, h6, h7, h8, h9, h10, h11, h12, h13, h14⟩ :
              BUBInv cfg s)
        · refine ⟨by simp [BUBState.try_send, mpscTrySend, hc, hf, h1],
            by simp [BUBState.try_send, mpscTrySend, hc, hf, h2],
            by simp [BUBState.try_send, mpscTrySend, hc, hf, h3],
            by simp [BUBState.try_send, mpscTrySend, hc, hf, h4],
            by simp [BUBState.try_send, mpscTrySend, hc, hf, h5],
            by simpa [BUBState.try_send, mpscTrySend, hc, hf] using h6,
            ?_,
            by simp [BUBState.try_send, mpscTrySend, hc, hf, h8],
            by simpa [BUBState.try_send, mpscTrySend, hc, hf] using h9,
            by simp [BUBState.try_send, mpscTrySend, hc, hf, h10],
            by simp [BUBState.try_send, mpscTrySend, hc, hf, h11],
            by simp [BUBState.try_send, mpscTrySend, hc, hf, h12],
            by simp [BUBState.try_send, mpscTrySend, hc, hf, h13], ?_⟩
          · intro hw
            rcases h7 hw with hall | ⟨gs, g, hgr, hgs, hcl, _⟩
            · exact Or.inl (by
                simpa [BUBState.try_send, mpscTrySend, hc, hf] using hall)
            · exact absurd hcl (by simpa using hc)
          · intro hs
            simp [BUBState.try_send, mpscTrySend, hc, hf] at hs
            exact absurd (h14 hs).1 (by simpa using hc)
  | close =>
      simp only [BUBStep, Option.some.injEq] at hstep
      subst hstep
      refine ⟨h1, h2, h3, h4, h5, h6, ?_, h8, h9, h10, h11, h12, h13,
        fun hs => ⟨rfl, (h14 hs).2.1, (h14 hs).2.2.1, (h14 hs).2.2.2⟩⟩
      intro hw
      rcases h7 hw with hall | ⟨gs, g, hgr, hgs, _, hqe, hacc⟩
      · exact Or.inl hall
      · exact Or.inr ⟨gs, g, hgr, hgs, rfl, hqe, hacc⟩
  | pull =>
      cases hq : s.queue with
      | nil => simp [BUBStep, hq] at hstep
      | cons m rest =>
          by_cases hg : s.inflight.length < cfg.max_parallel ∧
              s.acc.length < cfg.batch_size
          · simp only [BUBStep, hq, hg.1, hg.2, and_self, if_true,
              Option.some.injEq] at hstep
            subst hstep
            refine ⟨by simp [h1, hq], by simp [h2], h3, h4, ?_, h6, ?_, h8,
              h9, h10, h11, h12, h13, ?_⟩
            · simpa using hg.2
            · intro hw
              rcases h7 hw with hall | ⟨gs, g, hgr, hgs, hcl, hqe, hacc⟩
              · exact Or.inl hall
              · rw [hq] at hqe
                cases hqe
            · intro hs
              have hqe := (h14 hs).2.1
              simp [hq] at hqe
          · simp only [BUBStep, hq] at hstep
            rw [if_neg hg] at hstep
            cases hstep
  | formGroup =>
      by_cases hg : s.inflight.length < cfg.max_parallel ∧
          BUBEmits cfg s.queue s.acc s.closedFlag
      · simp only [BUBStep] at hstep
        rw [if_pos hg] at hstep
        simp only [Option.some.injEq] at hstep
        subst hstep
        have hK := hg.1
        obtain ⟨hacc0, hemit⟩ := hg.2
        refine ⟨by simp [h1], by simp [h2], by simp [h3],
          by simpa using hK, by simp, ?_, ?_, h8, h9, h10, h11, h12, h13, ?_⟩
        · intro g hgmem
          simp only [List.mem_append, List.mem_singleton] at hgmem
          rcases hgmem with hgmem | rfl
          · exact h6 g hgmem
          · exact ⟨Nat.pos_of_ne_zero hacc0, h5⟩
        · intro hw
          rcases hemit with hfull | ⟨hqe, hready⟩
          · rcases h7 hw with hall | ⟨gs, g, hgr, hgs, hcl, hqe, hacc⟩
            · refine Or.inl ?_
              intro g hgmem
              simp only [List.mem_append, List.mem_singleton] at hgmem
              rcases hgmem with hgmem | rfl
              · exact hall g hgmem
              · exact hfull
            · rw [hacc] at hacc0
              simp at hacc0
          · rcases hready with hready | hcl
            · rw [hready] at hw
              cases hw
            · rcases h7 hw with hall | ⟨gs, g, hgr, hgs, _, _, hacc⟩
              · exact Or.inr ⟨s.groups, s.acc, rfl, hall, hcl,
                  List.isEmpty_iff.mp hqe, rfl⟩
              · rw [hacc] at hacc0
                simp at hacc0
        · intro hs
          have hacc := (h14 hs).2.2.1
          rw [hacc] at hacc0
          simp at hacc0
      · simp only [BUBStep] at hstep
        rw [if_neg hg] at hstep
        cases hstep
  | complete i r busOk =>
      by_cases hi : i < s.inflight.length
      · simp only [BUBStep, hi, if_pos, Option.some.injEq] at hstep
        subst hstep
        have hlen := List.length_eraseIdx_add_one hi
        refine ⟨by simp [h1], by simp [h2], ?_, ?_, h5, h6, ?_, h8, h9, h10,
          h11, h12, h13, ?_⟩
        · simp only
          omega
        · simp only
          omega
        · intro hw
          rcases h7 hw with hall | ⟨gs, g, hgr, hgs, hcl, hqe, hacc⟩
          · exact Or.inl hall
          · exact Or.inr ⟨gs, g, hgr, hgs, hcl, hqe, hacc⟩
        · intro hs
          obtain ⟨_, _, _, hin⟩ := h14 hs
          simp [hin] at hi
      · simp [BUBStep, hi] at hstep
  | finalize r busOk =>
      simp only [BUBStep] at hstep
      split at hstep
      · next hc hqe hacc hin hsy =>
          simp only [Option.some.injEq] at hstep
          subst hstep
          refine ⟨by simp [h1, hqe], by simp [h2, hacc], by simp [h3, hin],
            by simp [hin], by simp [hacc], h6, ?_, by simp, fun _ => rfl,
            h10, h11, h12, h13, fun _ => ⟨hc, hqe, hacc, hin⟩⟩
          intro hw
          rcases h7 hw with hall | ⟨gs, g, hgr, hgs, _, _, _⟩
          · exact Or.inl hall
          · exact Or.inr ⟨gs, g, hgr, hgs, hc, hqe, hacc⟩
      · exact absurd hstep (by simp)
  | exitEv =>
      by_cases hg : s.syncCalls = 1 ∧ s.exited = false
      · simp only [BUBStep, hg.1, hg.2, and_self, if_true,
          Option.some.injEq] at hstep
        subst hstep
        refine ⟨h1, h2, h3, h4, h5, h6, ?_, by simp, fun _ => rfl, h10, h11,
          h12, h13, fun _ => h14 hg.1⟩
        intro hw
        rcases h7 hw with hall | ⟨gs, g, hgr, hgs, hcl, hqe, hacc⟩
        · exact Or.inl hall
        · exact Or.inr ⟨gs, g, hgr, hgs, hcl, hqe, hacc⟩
      · simp [BUBStep, hg] at hstep

lemma bub_run_inv {M E : Type} {cfg : BufferUnorderedBatchedConfig}
    {ls : List (BUBLabel M E)} {s s' : BUBState M E} (hI : BUBInv cfg s)
    (hrun : BUBRun cfg ls s = some s') : BUBInv cfg s' := by
  induction ls generalizing s with
  | nil =>
      simp only [BUBRun, Option.some.injEq] at hrun
      subst hrun
      exact hI
  | cons l ls ih =>
      simp only [BUBRun] at hrun
      cases hs : BUBStep cfg l s with
      | none => simp [hs] at hrun
      | some s1 =>
          rw [hs] at hrun
          exact ih (bub_step_inv hI hs) hrun

lemma bub_reaches_inv {M E : Type} {cfg : BufferUnorderedBatchedConfig}
    {s : BUBState M E} (h : BUBReaches cfg s) : BUBInv cfg s := by
  obtain ⟨ls, hrun⟩ := h
  exact bub_run_inv (bub_init_inv cfg) hrun

/-! ## Step-shape lemmas -/

lemma bu_pull_elim {M E : Type} {cfg : BufferUnorderedConfig}
    {s s' : BUState M E} (h : BUStep cfg .pull s = some s') :
    ∃ m rest, s.queue = m :: rest ∧ s.inflight.length < cfg.max_parallel ∧
      s' = { s with
              queue := rest
              inflight := s.inflight ++ [m]
              stats :=
                { s.stats with
                  buffer := s.stats.buffer - 1
                  parallel := s.stats.parallel + 1 } } := by
  cases hq : s.queue with
  | nil => simp [BUStep, hq] at h
  | cons m rest =>
      by_cases hK : s.inflight.length < cfg.max_parallel
      · simp only [BUStep, hq, hK, if_true, Option.some.injEq] at h
        exact ⟨m, rest, rfl, hK, h.symm⟩
      · simp [BUStep, hq, hK] at h

lemma bu_complete_elim {M E : Type} {cfg : BufferUnorderedConfig}
    {i : Nat} {r : JoinRes E} {b : Bool} {s s' : BUState M E}
    (h : BUStep cfg (.complete i r b) s = some s') :
    i < s.inflight.length ∧
      s' = { s with
              inflight := s.inflight.eraseIdx i
              stats := { s.stats with parallel := s.stats.parallel - 1 }
              errors := forwardOnError r s.errors } := by
  by_cases hi : i < s.inflight.length
  · simp only [BUStep, hi, if_true, Option.some.injEq] at h
    exact ⟨hi, h.symm⟩
  · simp [BUStep, hi] at h

lemma bu_finalize_elim {M E : Type} {cfg : BufferUnorderedConfig}
    {r : JoinRes E} {b : Bool} {s s' : BUState M E}
    (h : BUStep cfg (.finalize r b) s = some s') :
    s.closedFlag = true ∧ s.queue = [] ∧ s.inflight = [] ∧ s.syncCalls = 0 ∧
      s' = { s with syncCalls := 1, errors := forwardOnError r s.errors } := by
  simp only [BUStep] at h
  split at h
  · next hc hqe hin hsy =>
      simp only [Option.some.injEq] at h
      exact ⟨hc, hqe, hin, hsy, h.symm⟩
  · exact absurd h (by simp)

lemma bu_exit_elim {M E : Type} {cfg : BufferUnorderedConfig}
    {s s' : BUState M E} (h : BUStep cfg .exitEv s = some s') :
    s.syncCalls = 1 ∧ s.exited = false ∧ s' = { s with exited := true } := by
  by_cases hg : s.syncCalls = 1 ∧ s.exited = false
  · simp only [BUStep, hg.1, hg.2, and_self, if_true, Option.some.injEq] at h
    refine ⟨hg.1, hg.2, ?_⟩
    rw [← h]
    simp [hg.1]
  · simp [BUStep, hg] at h

lemma bub_pull_elim {M E : Type} {cfg : BufferUnorderedBatchedConfig}
    {s s' : BUBState M E} (h : BUBStep cfg .pull s = some s') :
    ∃ m rest, s.queue = m :: rest ∧ s.inflight.length < cfg.max_parallel ∧
      s.acc.length < cfg.batch_size ∧
      s' = { s with
              queue := rest
              acc := s.acc ++ [m]
              stats :=
                { s.stats with
                  buffer := s.stats.buffer - 1
                  batch := s.stats.batch + 1 } } := by
  cases hq : s.queue with
  | nil => simp [BUBStep, hq] at h
  | cons m rest =>
      by_cases hg : s.inflight.length < cfg.max_parallel ∧
          s.acc.length < cfg.batch_size
      · simp only [BUBStep, hq, hg.1, hg.2, and_self, if_true,
          Option.some.injEq] at h
        exact ⟨m, rest, rfl, hg.1, hg.2, h.symm⟩
      · simp only [BUBStep, hq] at h
        rw [if_neg hg] at h
        cases h

lemma bub_formGroup_elim {M E : Type} {cfg : BufferUnorderedBatchedConfig}
    {s s' : BUBState M E} (h : BUBStep cfg .formGroup s = some s') :
    s.inflight.length < cfg.max_parallel ∧
      BUBEmits cfg s.queue s.acc s.closedFlag ∧
      s' = { s with
              acc := []
              inflight := s.inflight ++ [s.acc]
              groups := s.groups ++ [s.acc]
              stats :=
                { s.stats with
                  batch := s.stats.batch - s.acc.length
                  parallel := s.stats.parallel + 1 } } := by
  by_cases hg : s.inflight.length < cfg.max_parallel ∧
      BUBEmits cfg s.queue s.acc s.closedFlag
  · simp only [BUBStep] at h
    rw [if_pos hg] at h
    simp only [Option.some.injEq] at h
    exact ⟨hg.1, hg.2, h.symm⟩
  · simp only [BUBStep] at h
    rw [if_neg hg] at h
    cases h

lemma bub_complete_elim {M E : Type} {cfg : BufferUnorderedBatchedConfig}
    {i : Nat} {r : JoinRes E} {b : Bool} {s s' : BUBState M E}
    (h : BUBStep cfg (.complete i r b) s = some s') :
    i < s.inflight.length ∧
      s' = { s with
              inflight := s.inflight.eraseIdx i
              stats := { s.stats with parallel := s.stats.parallel - 1 }
              errors := forwardOnError r s.errors } := by
  by_cases hi : i < s.inflight.length
  · simp only [BUBStep, hi, if_true, Option.some.injEq] at h
    exact ⟨hi, h.symm⟩
  · simp [BUBStep, hi] at h

lemma bub_finalize_elim {M E : Type} {cfg : BufferUnorderedBatchedConfig}
    {r : JoinRes E} {b : Bool} {s s' : BUBState M E}
    (h : BUBStep cfg (.finalize r b) s = some s') :
    s.closedFlag = true ∧ s.queue = [] ∧ s.acc = [] ∧ s.inflight = [] ∧
      s.syncCalls = 0 ∧
      s' = { s with syncCalls := 1, errors := forwardOnError r s.errors } := by
  simp only [BUBStep] at h
  split at h
  · next hc hqe hacc hin hsy =>
      simp only [Option.some.injEq] at h
      exact ⟨hc, hqe, hacc, hin, hsy, h.symm⟩
  · exact absurd h (by simp)

lemma bub_exit_elim {M E : Type} {cfg : BufferUnorderedBatchedConfig}
    {s s' : BUBState M E} (h : BUBStep cfg .exitEv s = some s') :
    s.syncCalls = 1 ∧ s.exited = false ∧ s' = { s with exited := true } := by
  by_cases hg : s.syncCalls = 1 ∧ s.exited = false
  · simp only [BUBStep, hg.1, hg.2, and_self, if_true, Option.some.injEq] at h
    refine ⟨hg.1, hg.2, ?_⟩
    rw [← h]
    simp [hg.1]
  · simp [BUBStep, hg] at h

/-- Poller startup of the single-message variant (sync.rs line 79):
`let ut = ut.downcast_sync::<T>().unwrap();` performed once before the
dispatch loop. `none` models the `unwrap` panic on a type-tag mismatch: the
poller fails unconditionally instead of producing a typed error or running. -/
def buPollerStart (M E : Type) (cfg : BufferUnorderedConfig)
    (handlerTag : Nat) (u : Untyped) : Option (BUState M E) :=
  (downcast_sync handlerTag u).map (fun _ => BUState.init M E cfg)

/-- Poller startup of the batched variant (batched sync.rs line 81), same
shape as `buPollerStart`. -/
def bubPollerStart (M E : Type) (cfg : BufferUnorderedBatchedConfig)
    (handlerTag : Nat) (u : Untyped) : Option (BUBState M E) :=
  (downcast_sync handlerTag u).map (fun _ => BUBState.init M E cfg)

/-! ## Claims -/

/-- C1: in both poller variants the finalize hook (`handler.sync`) runs at
most once per receiver lifetime and has run exactly once by the time the
poller exits; a finalize step can only fire when the channel is closed and
drained and every dispatched unit has completed (`inflight = []`), it flips
`syncCalls` from 0 to 1, and the exit event requires the finalize hook to
have run. -/
theorem claim_C1 :
    (∀ (M E : Type) (cfg : BufferUnorderedConfig) (s : BUState M E),
      BUReaches cfg s →
        s.syncCalls ≤ 1 ∧ (s.exited = true → s.syncCalls = 1) ∧
        (∀ (r : JoinRes E) (b : Bool) (s' : BUState M E),
          BUStep cfg (.finalize r b) s = some s' →
            s.inflight = [] ∧ s.queue = [] ∧ s.closedFlag = true ∧
            s.syncCalls = 0 ∧ s'.syncCalls = 1) ∧
        (∀ s' : BUState M E, BUStep cfg .exitEv s = some s' →
          s.syncCalls = 1)) ∧
    (∀ (M E : Type) (cfg : BufferUnorderedBatchedConfig) (s : BUBState M E),
      BUBReaches cfg s →
        s.syncCalls ≤ 1 ∧ (s.exited = true → s.syncCalls = 1) ∧
        (∀ (r : JoinRes E) (b : Bool) (s' : BUBState M E),
          BUBStep cfg (.finalize r b) s = some s' →
            s.inflight = [] ∧ s.queue = [] ∧ s.closedFlag = true ∧
            s.syncCalls = 0 ∧ s'.syncCalls = 1) ∧
        (∀ s' : BUBState M E, BUBStep cfg .exitEv s = some s' →
          s.syncCalls = 1)) := by
  constructor
  · intro M E cfg s hs
    have hI := bu_reaches_inv hs
    refine ⟨hI.sync_le, hI.exited_sync, ?_, ?_⟩
    · intro r b s' h
      obtain ⟨hc, hqe, hin, hsy, hs'⟩ := bu_finalize_elim h
      exact ⟨hin, hqe, hc, hsy, by rw [hs']⟩
    · intro s' h
      exact (bu_exit_elim h).1
  · intro M E cfg s hs
    have hI := bub_reaches_inv hs
    refine ⟨hI.sync_le, hI.exited_sync, ?_, ?_⟩
    · intro r b s' h
      obtain ⟨hc, hqe, hacc, hin, hsy, hs'⟩ := bub_finalize_elim h
      exact ⟨hin, hqe, hc, hsy, by rw [hs']⟩
    · intro s' h
      exact (bub_exit_elim h).1

theorem claim_C1_witness :
    (⟨[], true, [], 0, false, 1, ⟨0, 2, 0, 1⟩, []⟩ :
        BUState Nat Nat).inflight = [] ∧
    (⟨[], true, [], 0, false, 1, ⟨0, 2, 0, 1⟩, []⟩ :
        BUState Nat Nat).queue = [] ∧
    (⟨[], true, [], 0, false, 1, ⟨0, 2, 0, 1⟩, []⟩ :
        BUState Nat Nat).closedFlag = true ∧
    (⟨[], true, [], 0, false, 1, ⟨0, 2, 0, 1⟩, []⟩ :
        BUState Nat Nat).syncCalls = 0 ∧
    (⟨[], true, [], 1, false, 1, ⟨0, 2, 0, 1⟩, []⟩ :
        BUState Nat Nat).syncCalls = 1 :=
  (claim_C1.1 Nat Nat ⟨2, 1⟩ ⟨[], true, [], 0, false, 1, ⟨0, 2, 0, 1⟩, []⟩
      ⟨[.trySend 5, .close, .pull, .complete 0 (.done (.ok ())) true],
        by decide⟩).2.2.1 (.done (.ok ())) true
    ⟨[], true, [], 1, false, 1, ⟨0, 2, 0, 1⟩, []⟩ (by decide)

/-- C2: in both poller variants the number of in-flight dispatch units never
exceeds `max_parallel`, the `parallel` counter never exceeds the
`parallel_total` counter, and while `max_parallel` units are in flight the
poller can pull no further item from the channel (and, in the batched
variant, can form no further group). -/
theorem claim_C2 :
    (∀ (M E : Type) (cfg : BufferUnorderedConfig) (s : BUState M E),
      BUReaches cfg s →
        s.inflight.length ≤ cfg.max_parallel ∧
        s.stats.parallel ≤ s.stats.parallel_total ∧
        (cfg.max_parallel ≤ s.inflight.length →
          BUStep cfg (.pull : BULabel M E) s = none)) ∧
    (∀ (M E : Type) (cfg : BufferUnorderedBatchedConfig) (s : BUBState M E),
      BUBReaches cfg s →
        s.inflight.length ≤ cfg.max_parallel ∧
        s.stats.parallel ≤ s.stats.parallel_total ∧
        (cfg.max_parallel ≤ s.inflight.length →
          BUBStep cfg (.pull : BUBLabel M E) s = none ∧
          BUBStep cfg (.formGroup : BUBLabel M E) s = none)) := by
  constructor
  · intro M E cfg s hs
    have hI := bu_reaches_inv hs
    refine ⟨hI.inflight_le, ?_, ?_⟩
    · rw [hI.parallel_eq, hI.parallel_total_eq]
      exact hI.inflight_le
    · intro hK
      cases hq : s.queue with
      | nil => simp [BUStep, hq]
      | cons m rest =>
          simp only [BUStep, hq]
          rw [if_neg (by omega)]
  · intro M E cfg s hs
    have hI := bub_reaches_inv hs
    refine ⟨hI.inflight_le, ?_, ?_⟩
    · rw [hI.parallel_eq, hI.parallel_total_eq]
      exact hI.inflight_le
    · intro hK
      constructor
      · cases hq : s.queue with
        | nil => simp [BUBStep, hq]
        | cons m rest =>
            simp only [BUBStep, hq]
            rw [if_neg (fun hcon => absurd hcon.1 (by omega))]
      · simp only [BUBStep]
        rw [if_neg (fun hcon => absurd hcon.1 (by omega))]

theorem claim_C2_witness :
    ((⟨[2], false, [1], 0, false, 1, ⟨1, 4, 1, 1⟩, []⟩ :
        BUState Nat Nat).inflight.length ≤ 1 ∧
      BUStep ⟨4, 1⟩ (.pull : BULabel Nat Nat)
        ⟨[2], false, [1], 0, false, 1, ⟨1, 4, 1, 1⟩, []⟩ = none) ∧
    (BUBStep ⟨4, 1, 2, true⟩ (.pull : BUBLabel Nat Nat)
        ⟨[2], false, [], [[1]], [[1]], 0, false, 1, ⟨1, 4, 1, 1, 0, 2⟩, []⟩ =
          none ∧
      BUBStep ⟨4, 1, 2, true⟩ (.formGroup : BUBLabel Nat Nat)
        ⟨[2], false, [], [[1]], [[1]], 0, false, 1, ⟨1, 4, 1, 1, 0, 2⟩, []⟩ =
          none) := by
  have h1 := claim_C2.1 Nat Nat ⟨4, 1⟩
    ⟨[2], false, [1], 0, false, 1, ⟨1, 4, 1, 1⟩, []⟩
    ⟨[.trySend 1, .trySend 2, .pull], by decide⟩
  have h2 := claim_C2.2 Nat Nat ⟨4, 1, 2, true⟩
    ⟨[2], false, [], [[1]], [[1]], 0, false, 1, ⟨1, 4, 1, 1, 0, 2⟩, []⟩
    ⟨[.trySend 1, .pull, .formGroup, .trySend 2], by decide⟩
  exact ⟨⟨h1.1, h1.2.2 (by decide)⟩, h2.2.2 (by decide)⟩

/-- C3: in both receiver variants `try_send` either succeeds, appending the
message to the channel and incrementing exactly the `buffer` counter, or
fails, returning the message back inside the error and leaving the whole
state (every stats counter included) unchanged; it succeeds exactly when the
channel is neither closed nor full. -/
theorem claim_C3 :
    (∀ (M E : Type) (cfg : BufferUnorderedConfig) (s : BUState M E) (m : M),
      (((s.try_send cfg m).1 = .ok () ∧
          (s.try_send cfg m).2.stats.buffer = s.stats.buffer + 1 ∧
          (s.try_send cfg m).2.stats.parallel = s.stats.parallel ∧
          (s.try_send cfg m).2.stats.buffer_total = s.stats.buffer_total ∧
          (s.try_send cfg m).2.stats.parallel_total =
            s.stats.parallel_total ∧
          (s.try_send cfg m).2.queue = s.queue ++ [m]) ∨
        (∃ e, (s.try_send cfg m).1 = .error e ∧ e.msg = m ∧
          (s.try_send cfg m).2 = s)) ∧
      ((s.try_send cfg m).1 = .ok () ↔
        (s.closedFlag = false ∧ s.queue.length < cfg.buffer_size))) ∧
    (∀ (M E : Type) (cfg : BufferUnorderedBatchedConfig) (s : BUBState M E)
        (m : M),
      (((s.try_send cfg m).1 = .ok () ∧
          (s.try_send cfg m).2.stats.buffer = s.stats.buffer + 1 ∧
          (s.try_send cfg m).2.stats.parallel = s.stats.parallel ∧
          (s.try_send cfg m).2.stats.batch = s.stats.batch ∧
          (s.try_send cfg m).2.stats.buffer_total = s.stats.buffer_total ∧
          (s.try_send cfg m).2.stats.parallel_total =
            s.stats.parallel_total ∧
          (s.try_send cfg m).2.stats.batch_size = s.stats.batch_size ∧
          (s.try_send cfg m).2.queue = s.queue ++ [m]) ∨
        (∃ e, (s.try_send cfg m).1 = .error e ∧ e.msg = m ∧
          (s.try_send cfg m).2 = s)) ∧
      ((s.try_send cfg m).1 = .ok () ↔
        (s.closedFlag = false ∧ s.queue.length < cfg.buffer_size))) := by
  constructor
  · intro M E cfg s m
    by_cases hc : s.closedFlag
    · refine ⟨Or.inr ⟨.closed m, ?_, rfl, ?_⟩, ?_⟩ <;>
        simp [BUState.try_send, mpscTrySend, hc, SendError.msg]
    · by_cases hf : cfg.buffer_size ≤ s.queue.length
      · refine ⟨Or.inr ⟨.full m, ?_, rfl, ?_⟩, ?_⟩ <;>
          simp [BUState.try_send, mpscTrySend, hc, hf, SendError.msg]
      · refine ⟨Or.inl ⟨?_, ?_, ?_, ?_, ?_, ?_⟩, ?_⟩ <;>
          simp [BUState.try_send, mpscTrySend, hc, hf]
        omega
  · intro M E cfg s m
    by_cases hc : s.closedFlag
    · refine ⟨Or.inr ⟨.closed m, ?_, rfl, ?_⟩, ?_⟩ <;>
        simp [BUBState.try_send, mpscTrySend, hc, SendError.msg]
    · by_cases hf : cfg.buffer_size ≤ s.queue.length
      · refine ⟨Or.inr ⟨.full m, ?_, rfl, ?_⟩, ?_⟩ <;>
          simp [BUBState.try_send, mpscTrySend, hc, hf, SendError.msg]
      · refine ⟨Or.inl ⟨?_, ?_, ?_, ?_, ?_, ?_, ?_, ?_⟩, ?_⟩ <;>
          simp [BUBState.try_send, mpscTrySend, hc, hf]
        omega

theorem claim_C3_witness :
    ((⟨[], false, [], 0, false, 1, ⟨0, 2, 0, 1⟩, []⟩ :
          BUState Nat Nat).try_send ⟨2, 1⟩ 7).1 = .ok () ∧
    ((⟨[8, 9], false, [], 0, false, 1, ⟨2, 2, 0, 1⟩, []⟩ :
          BUState Nat Nat).try_send ⟨2, 1⟩ 7).1 ≠ .ok () ∧
    ((⟨[], false, [], [], [], 0, false, 1, ⟨0, 2, 0, 1, 0, 2⟩, []⟩ :
          BUBState Nat Nat).try_send ⟨2, 1, 2, true⟩ 7).1 = .ok () := by
  refine ⟨(claim_C3.1 Nat Nat ⟨2, 1⟩
      ⟨[], false, [], 0, false, 1, ⟨0, 2, 0, 1⟩, []⟩ 7).2.mpr
      (by decide), ?_, (claim_C3.2 Nat Nat ⟨2, 1, 2, true⟩
      ⟨[], false, [], [], [], 0, false, 1, ⟨0, 2, 0, 1, 0, 2⟩, []⟩ 7).2.mpr
      (by decide)⟩
  intro hok
  have h := (claim_C3.1 Nat Nat ⟨2, 1⟩
      ⟨[8, 9], false, [], 0, false, 1, ⟨2, 2, 0, 1⟩, []⟩ 7).2.mp hok
  exact absurd h.2 (by decide)

/-- C4: in ready mode (`when_ready = true`) every group the batched poller
forms consists of the entire accumulation (all currently available messages)
and holds between 1 and `batch_size` messages; whenever at least one message
has been pulled and the channel is momentarily empty (and a parallel slot is
free), forming such a group is enabled; and every group ever emitted holds
between 1 and `batch_size` messages. -/
theorem claim_C4 :
    ∀ (M E : Type) (cfg : BufferUnorderedBatchedConfig) (s : BUBState M E),
      BUBReaches cfg s → cfg.when_ready = true →
        (∀ s', BUBStep cfg (.formGroup : BUBLabel M E) s = some s' →
          s'.groups = s.groups ++ [s.acc] ∧
          s'.inflight = s.inflight ++ [s.acc] ∧
          0 < s.acc.length ∧ s.acc.length ≤ cfg.batch_size ∧ s'.acc = []) ∧
        (s.acc.length ≠ 0 → s.queue = [] →
          s.inflight.length < cfg.max_parallel →
          (BUBStep cfg (.formGroup : BUBLabel M E) s).isSome = true) ∧
        (∀ g ∈ s.groups, 0 < g.length ∧ g.length ≤ cfg.batch_size) := by
  intro M E cfg s hs hready
  have hI := bub_reaches_inv hs
  refine ⟨?_, ?_, hI.groups_ok⟩
  · intro s' h
    obtain ⟨hK, hemits, hs'⟩ := bub_formGroup_elim h
    exact ⟨by rw [hs'], by rw [hs'], Nat.pos_of_ne_zero hemits.1,
      hI.acc_le, by rw [hs']⟩
  · intro hacc0 hqe hK
    have hemits : BUBEmits cfg s.queue s.acc s.closedFlag :=
      ⟨hacc0, Or.inr ⟨by simp [hqe], Or.inl hready⟩⟩
    simp only [BUBStep]
    rw [if_pos ⟨hK, hemits⟩]
    rfl

theorem claim_C4_witness :
    (⟨[], false, [], [[3]], [[1], [2], [3]], 0, false, 1,
        ⟨0, 4, 1, 2, 0, 10⟩, []⟩ : BUBState Nat Nat).groups =
      (⟨[], false, [3], [], [[1], [2]], 0, false, 1,
          ⟨0, 4, 0, 2, 1, 10⟩, []⟩ : BUBState Nat Nat).groups ++
        [(⟨[], false, [3], [], [[1], [2]], 0, false, 1,
            ⟨0, 4, 0, 2, 1, 10⟩, []⟩ : BUBState Nat Nat).acc] ∧
    0 < (⟨[], false, [3], [], [[1], [2]], 0, false, 1,
        ⟨0, 4, 0, 2, 1, 10⟩, []⟩ : BUBState Nat Nat).acc.length ∧
    (⟨[], false, [3], [], [[1], [2]], 0, false, 1,
        ⟨0, 4, 0, 2, 1, 10⟩, []⟩ : BUBState Nat Nat).acc.length ≤ 10 := by
  have h := (claim_C4 Nat Nat ⟨4, 2, 10, true⟩
      ⟨[], false, [3], [], [[1], [2]], 0, false, 1, ⟨0, 4, 0, 2, 1, 10⟩, []⟩
      ⟨[.trySend 1, .pull, .formGroup, .complete 0 (.done (.ok ())) true,
          .trySend 2, .pull, .formGroup, .complete 0 (.done (.ok ())) true,
          .trySend 3, .pull], by decide⟩ rfl).1
    ⟨[], false, [], [[3]], [[1], [2], [3]], 0, false, 1,
      ⟨0, 4, 1, 2, 0, 10⟩, []⟩ (by decide)
  exact ⟨h.1, h.2.2.1, h.2.2.2.1⟩

/-- C5: in strict mode (`when_ready = false`) every group the batched poller
has dispatched, except possibly the final one, holds exactly `batch_size`
messages; every group is nonempty and at most `batch_size`; a short group can
exist only once the channel has closed and fully drained; and while fewer
than `batch_size` messages are accumulated and the channel is not
closed-and-drained, no group can be formed (the messages stay pending). -/
theorem claim_C5 :
    ∀ (M E : Type) (cfg : BufferUnorderedBatchedConfig) (s : BUBState M E),
      BUBReaches cfg s → cfg.when_ready = false →
        (∀ g ∈ s.groups.dropLast, g.length = cfg.batch_size) ∧
        (∀ g ∈ s.groups, 0 < g.length ∧ g.length ≤ cfg.batch_size) ∧
        ((∀ g ∈ s.groups, g.length = cfg.batch_size) ∨
          (s.closedFlag = true ∧ s.queue = [] ∧ s.acc = [])) ∧
        (s.acc.length ≠ 0 → s.acc.length < cfg.batch_size →
          ¬(s.closedFlag = true ∧ s.queue = []) →
          BUBStep cfg (.formGroup : BUBLabel M E) s = none) := by
  intro M E cfg s hs hstrict
  have hI := bub_reaches_inv hs
  have hSH := hI.strict_hist hstrict
  refine ⟨?_, hI.groups_ok, ?_, ?_⟩
  · intro g hg
    rcases hSH with hall | ⟨gs, glast, hgr, hgs, _, _, _⟩
    · exact hall g (List.mem_of_mem_dropLast hg)
    · rw [hgr, List.dropLast_concat] at hg
      exact hgs g hg
  · rcases hSH with hall | ⟨_, _, _, _, hcl, hqe, hacc⟩
    · exact Or.inl hall
    · exact Or.inr ⟨hcl, hqe, hacc⟩
  · intro hacc0 hlt hnot
    simp only [BUBStep]
    rw [if_neg]
    rintro ⟨hK, _, hor⟩
    rcases hor with hfull | ⟨hqe, hor⟩
    · omega
    · rcases hor with hready | hcl
      · rw [hready] at hstrict
        cases hstrict
      · exact hnot ⟨hcl, List.isEmpty_iff.mp hqe⟩

theorem claim_C5_witness :
    (∀ g ∈ (⟨[], false, [20, 21, 22, 23, 24],
        [[0, 1, 2, 3, 4, 5, 6, 7, 8, 9],
          [10, 11, 12, 13, 14, 15, 16, 17, 18, 19]],
        [[0, 1, 2, 3, 4, 5, 6, 7, 8, 9],
          [10, 11, 12, 13, 14, 15, 16, 17, 18, 19]],
        0, false, 1, ⟨0, 32, 2, 4, 5, 10⟩, []⟩ :
          BUBState Nat Nat).groups, 0 < g.length ∧ g.length ≤ 10) ∧
    BUBStep ⟨32, 4, 10, false⟩ (.formGroup : BUBLabel Nat Nat)
      ⟨[], false, [20, 21, 22, 23, 24],
        [[0, 1, 2, 3, 4, 5, 6, 7, 8, 9],
          [10, 11, 12, 13, 14, 15, 16, 17, 18, 19]],
        [[0, 1, 2, 3, 4, 5, 6, 7, 8, 9],
          [10, 11, 12, 13, 14, 15, 16, 17, 18, 19]],
        0, false, 1, ⟨0, 32, 2, 4, 5, 10⟩, []⟩ = none := by
  have h := claim_C5 Nat Nat ⟨32, 4, 10, false⟩
    ⟨[], false, [20, 21, 22, 23, 24],
      [[0, 1, 2, 3, 4, 5, 6, 7, 8, 9],
        [10, 11, 12, 13, 14, 15, 16, 17, 18, 19]],
      [[0, 1, 2, 3, 4, 5, 6, 7, 8, 9],
        [10, 11, 12, 13, 14, 15, 16, 17, 18, 19]],
      0, false, 1, ⟨0, 32, 2, 4, 5, 10⟩, []⟩
    ⟨[.trySend 0, .pull, .trySend 1, .pull, .trySend 2, .pull, .trySend 3,
        .pull, .trySend 4, .pull, .trySend 5, .pull, .trySend 6, .pull,
        .trySend 7, .pull, .trySend 8, .pull, .trySend 9, .pull, .formGroup,
        .trySend 10, .pull, .trySend 11, .pull, .trySend 12, .pull,
        .trySend 13, .pull, .trySend 14, .pull, .trySend 15, .pull,
        .trySend 16, .pull, .trySend 17, .pull, .trySend 18, .pull,
        .trySend 19, .pull, .formGroup, .trySend 20, .pull, .trySend 21,
        .pull, .trySend 22, .pull, .trySend 23, .pull, .trySend 24, .pull],
      by decide⟩ rfl
  exact ⟨h.2.1, h.2.2.2 (by decide) (by decide) (by decide)⟩

/-- C6: in both poller variants, when a completed unit carries a handler
error the poller appends exactly one wrapped error-class message to the
stream offered to the bus; the step is identical whether the bus accepts that
forward or not (fire-and-forget); only the completed unit leaves the
in-flight pool, the loop state is otherwise untouched, and every remaining
in-flight unit can still complete afterwards. -/
theorem claim_C6 :
    (∀ (M E : Type) (cfg : BufferUnorderedConfig) (s s' : BUState M E)
        (i : Nat) (e : E) (b : Bool),
      BUStep cfg (.complete i (.done (.error e)) b) s = some s' →
        s'.errors = s.errors ++ [ErrorMsg.mk e] ∧
        s'.inflight = s.inflight.eraseIdx i ∧
        s'.queue = s.queue ∧ s'.closedFlag = s.closedFlag ∧
        s'.syncCalls = s.syncCalls ∧ s'.exited = s.exited ∧
        BUStep cfg (.complete i (.done (.error e)) true) s =
          BUStep cfg (.complete i (.done (.error e)) false) s ∧
        (∀ j, j < s'.inflight.length → ∀ (r' : JoinRes E) (b' : Bool),
          (BUStep cfg (.complete j r' b') s').isSome = true)) ∧
    (∀ (M E : Type) (cfg : BufferUnorderedBatchedConfig)
        (s s' : BUBState M E) (i : Nat) (e : E) (b : Bool),
      BUBStep cfg (.complete i (.done (.error e)) b) s = some s' →
        s'.errors = s.errors ++ [ErrorMsg.mk e] ∧
        s'.inflight = s.inflight.eraseIdx i ∧
        s'.queue = s.queue ∧ s'.closedFlag = s.closedFlag ∧
        s'.syncCalls = s.syncCalls ∧ s'.exited = s.exited ∧
        BUBStep cfg (.complete i (.done (.error e)) true) s =
          BUBStep cfg (.complete i (.done (.error e)) false) s ∧
        (∀ j, j < s'.inflight.length → ∀ (r' : JoinRes E) (b' : Bool),
          (BUBStep cfg (.complete j r' b') s').isSome = true)) := by
  constructor
  · intro M E cfg s s' i e b h
    obtain ⟨hi, hs'⟩ := bu_complete_elim h
    refine ⟨by rw [hs']; rfl, by rw [hs'], by rw [hs'], by rw [hs'],
      by rw [hs'], by rw [hs'], rfl, ?_⟩
    intro j hj r' b'
    rw [hs'] at hj ⊢
    simp only at hj
    simp [BUStep, hj]
  · intro M E cfg s s' i e b h
    obtain ⟨hi, hs'⟩ := bub_complete_elim h
    refine ⟨by rw [hs']; rfl, by rw [hs'], by rw [hs'], by rw [hs'],
      by rw [hs'], by rw [hs'], rfl, ?_⟩
    intro j hj r' b'
    rw [hs'] at hj ⊢
    simp only at hj
    simp [BUBStep, hj]

theorem claim_C6_witness :
    (⟨[], false, [8], 0, false, 1, ⟨0, 4, 1, 2⟩,
        [ErrorMsg.mk 3]⟩ : BUState Nat Nat).errors =
      (⟨[], false, [7, 8], 0, false, 1, ⟨0, 4, 2, 2⟩, []⟩ :
          BUState Nat Nat).errors ++ [ErrorMsg.mk 3] ∧
    (⟨[], false, [8], 0, false, 1, ⟨0, 4, 1, 2⟩,
        [ErrorMsg.mk 3]⟩ : BUState Nat Nat).inflight =
      (⟨[], false, [7, 8], 0, false, 1, ⟨0, 4, 2, 2⟩, []⟩ :
          BUState Nat Nat).inflight.eraseIdx 0 ∧
    (⟨[8], false, [], [[7]], [[7]], 0, false, 1, ⟨1, 4, 1, 2, 0, 2⟩,
        [ErrorMsg.mk 5]⟩ : BUBState Nat Nat).errors =
      (⟨[8], false, [], [[7], [7]], [[7]], 0, false, 1,
          ⟨1, 4, 2, 2, 0, 2⟩, []⟩ : BUBState Nat Nat).errors ++
        [ErrorMsg.mk 5] := by
  have h1 := claim_C6.1 Nat Nat ⟨4, 2⟩
    ⟨[], false, [7, 8], 0, false, 1, ⟨0, 4, 2, 2⟩, []⟩
    ⟨[], false, [8], 0, false, 1, ⟨0, 4, 1, 2⟩, [ErrorMsg.mk 3]⟩
    0 3 true (by decide)
  have h2 := claim_C6.2 Nat Nat ⟨4, 2, 2, false⟩
    ⟨[8], false, [], [[7], [7]], [[7]], 0, false, 1, ⟨1, 4, 2, 2, 0, 2⟩,
      []⟩
    ⟨[8], false, [], [[7]], [[7]], 0, false, 1, ⟨1, 4, 1, 2, 0, 2⟩,
      [ErrorMsg.mk 5]⟩
    0 5 true (by decide)
  exact ⟨h1.1, h1.2.1, h2.1⟩

/-- C7: the handler resolution at poller startup (the one-time
`downcast_sync::<T>().unwrap()`) succeeds exactly when the untyped cell holds
the requested concrete type, in which case the poller starts in its initial
state and the failure branch is unreachable; on a mismatch the startup fails
unconditionally (modelled by `none`, the unwrap panic) instead of returning a
typed error or running; and in every reachable state of either variant the
downcast has happened exactly once. -/
theorem claim_C7 :
    ∀ (M E : Type) (cfgA : BufferUnorderedConfig)
      (cfgB : BufferUnorderedBatchedConfig) (tag : Nat) (u : Untyped),
      ((buPollerStart M E cfgA tag u).isSome = true ↔ u.tag = tag) ∧
      (u.tag = tag →
        buPollerStart M E cfgA tag u = some (BUState.init M E cfgA)) ∧
      (u.tag ≠ tag → buPollerStart M E cfgA tag u = none) ∧
      ((bubPollerStart M E cfgB tag u).isSome = true ↔ u.tag = tag) ∧
      (u.tag = tag →
        bubPollerStart M E cfgB tag u = some (BUBState.init M E cfgB)) ∧
      (u.tag ≠ tag → bubPollerStart M E cfgB tag u = none) ∧
      (∀ s : BUState M E, BUReaches cfgA s → s.downcasts = 1) ∧
      (∀ s : BUBState M E, BUBReaches cfgB s → s.downcasts = 1) := by
  intro M E cfgA cfgB tag u
  by_cases ht : u.tag = tag
  · refine ⟨by simp [buPollerStart, downcast_sync, ht], fun _ => ?_,
      fun hne => absurd ht hne,
      by simp [bubPollerStart, downcast_sync, ht], fun _ => ?_,
      fun hne => absurd ht hne,
      fun s hs => (bu_reaches_inv hs).downcasts_eq,
      fun s hs => (bub_reaches_inv hs).downcasts_eq⟩ <;>
      simp [buPollerStart, bubPollerStart, downcast_sync, ht]
  · refine ⟨by simp [buPollerStart, downcast_sync, ht], fun heq => absurd heq ht,
      fun _ => by simp [buPollerStart, downcast_sync, ht],
      by simp [bubPollerStart, downcast_sync, ht], fun heq => absurd heq ht,
      fun _ => by simp [bubPollerStart, downcast_sync, ht],
      fun s hs => (bu_reaches_inv hs).downcasts_eq,
      fun s hs => (bub_reaches_inv hs).downcasts_eq⟩

theorem claim_C7_witness :
    buPollerStart Nat Nat ⟨4, 2⟩ 0 ⟨0⟩ =
      some (BUState.init Nat Nat ⟨4, 2⟩) ∧
    buPollerStart Nat Nat ⟨4, 2⟩ 0 ⟨1⟩ = none ∧
    bubPollerStart Nat Nat ⟨4, 2, 2, true⟩ 0 ⟨1⟩ = none ∧
    (BUState.init Nat Nat ⟨4, 2⟩).downcasts = 1 := by
  refine ⟨(claim_C7 Nat Nat ⟨4, 2⟩ ⟨4, 2, 2, true⟩ 0 ⟨0⟩).2.1 rfl,
    (claim_C7 Nat Nat ⟨4, 2⟩ ⟨4, 2, 2, true⟩ 0 ⟨1⟩).2.2.1 (by decide),
    (claim_C7 Nat Nat ⟨4, 2⟩ ⟨4, 2, 2, true⟩ 0 ⟨1⟩).2.2.2.2.2.1 (by decide),
    (claim_C7 Nat Nat ⟨4, 2⟩ ⟨4, 2, 2, true⟩ 0 ⟨0⟩).2.2.2.2.2.2.1
      (BUState.init Nat Nat ⟨4, 2⟩) ⟨[], by decide⟩⟩

/-- C8: in the batched poller every message pulled into the grouping stage
decrements the `buffer` counter by one and increments the `batch` counter by
one, and every formed group decrements `batch` by exactly the group's size
while incrementing `parallel` by one and submitting exactly one dispatch unit
(the whole group). -/
theorem claim_C8 :
    ∀ (M E : Type) (cfg : BufferUnorderedBatchedConfig) (s : BUBState M E),
      BUBReaches cfg s →
        (∀ s', BUBStep cfg (.pull : BUBLabel M E) s = some s' →
          s.stats.buffer = s'.stats.buffer + 1 ∧
          s'.stats.batch = s.stats.batch + 1) ∧
        (∀ s', BUBStep cfg (.formGroup : BUBLabel M E) s = some s' →
          s.stats.batch = s'.stats.batch + s.acc.length ∧
          s'.stats.parallel = s.stats.parallel + 1 ∧
          s'.inflight = s.inflight ++ [s.acc] ∧
          s'.groups = s.groups ++ [s.acc]) := by
  intro M E cfg s hs
  have hI := bub_reaches_inv hs
  constructor
  · intro s' h
    obtain ⟨m, rest, hq, hK, hlt, hs'⟩ := bub_pull_elim h
    have hb : s.stats.buffer = s.queue.length := hI.buffer_eq
    rw [hq] at hb
    simp only [List.length_cons] at hb
    constructor
    · rw [hs']
      simp only
      omega
    · rw [hs']
  · intro s' h
    obtain ⟨hK, hemits, hs'⟩ := bub_formGroup_elim h
    have hb : s.stats.batch = s.acc.length := hI.batch_eq
    refine ⟨?_, by rw [hs'], by rw [hs'], by rw [hs']⟩
    rw [hs']
    simp only
    omega

theorem claim_C8_witness :
    (⟨[2], false, [1], [], [], 0, false, 1, ⟨1, 4, 0, 2, 1, 2⟩, []⟩ :
        BUBState Nat Nat).stats.buffer =
      (⟨[], false, [1, 2], [], [], 0, false, 1, ⟨0, 4, 0, 2, 2, 2⟩, []⟩ :
          BUBState Nat Nat).stats.buffer + 1 ∧
    (⟨[], false, [], [[1, 2]], [[1, 2]], 0, false, 1, ⟨0, 4, 1, 2, 0, 2⟩,
        []⟩ : BUBState Nat Nat).stats.parallel =
      (⟨[], false, [1, 2], [], [], 0, false, 1, ⟨0, 4, 0, 2, 2, 2⟩, []⟩ :
          BUBState Nat Nat).stats.parallel + 1 ∧
    (⟨[], false, [], [[1, 2]], [[1, 2]], 0, false, 1, ⟨0, 4, 1, 2, 0, 2⟩,
        []⟩ : BUBState Nat Nat).groups =
      (⟨[], false, [1, 2], [], [], 0, false, 1, ⟨0, 4, 0, 2, 2, 2⟩, []⟩ :
          BUBState Nat Nat).groups ++
        [(⟨[], false, [1, 2], [], [], 0, false, 1, ⟨0, 4, 0, 2, 2, 2⟩, []⟩ :
            BUBState Nat Nat).acc] := by
  have hpull := (claim_C8 Nat Nat ⟨4, 2, 2, true⟩
    ⟨[2], false, [1], [], [], 0, false, 1, ⟨1, 4, 0, 2, 1, 2⟩, []⟩
    ⟨[.trySend 1, .trySend 2, .pull], by decide⟩).1
    ⟨[], false, [1, 2], [], [], 0, false, 1, ⟨0, 4, 0, 2, 2, 2⟩, []⟩
    (by decide)
  have hform := (claim_C8 Nat Nat ⟨4, 2, 2, true⟩
    ⟨[], false, [1, 2], [], [], 0, false, 1, ⟨0, 4, 0, 2, 2, 2⟩, []⟩
    ⟨[.trySend 1, .trySend 2, .pull, .pull], by decide⟩).2
    ⟨[], false, [], [[1, 2]], [[1, 2]], 0, false, 1, ⟨0, 4, 1, 2, 0, 2⟩, []⟩
    (by decide)
  exact ⟨hpull.1, hform.2.1, hform.2.2.2⟩

/-- C9: in both receiver variants, whenever the channel is empty and no
dispatch unit is in flight, the `buffer` and `parallel` counters both read
zero, whatever traffic was processed before. -/
theorem claim_C9 :
    (∀ (M E : Type) (cfg : BufferUnorderedConfig) (s : BUState M E),
      BUReaches cfg s → s.queue = [] → s.inflight = [] →
        s.stats.buffer = 0 ∧ s.stats.parallel = 0) ∧
    (∀ (M E : Type) (cfg : BufferUnorderedBatchedConfig) (s : BUBState M E),
      BUBReaches cfg s → s.queue = [] → s.inflight = [] →
        s.stats.buffer = 0 ∧ s.stats.parallel = 0) := by
  constructor
  · intro M E cfg s hs hq hin
    have hI := bu_reaches_inv hs
    exact ⟨by rw [hI.buffer_eq, hq]; rfl,
      by rw [hI.parallel_eq, hin]; rfl⟩
  · intro M E cfg s hs hq hin
    have hI := bub_reaches_inv hs
    exact ⟨by rw [hI.buffer_eq, hq]; rfl,
      by rw [hI.parallel_eq, hin]; rfl⟩

theorem claim_C9_witness :
    ((⟨[], false, [], 0, false, 1, ⟨0, 4, 0, 2⟩, []⟩ :
        BUState Nat Nat).stats.buffer = 0 ∧
      (⟨[], false, [], 0, false, 1, ⟨0, 4, 0, 2⟩, []⟩ :
          BUState Nat Nat).stats.parallel = 0) ∧
    ((⟨[], false, [], [], [[1]], 0, false, 1, ⟨0, 4, 0, 2, 0, 2⟩, []⟩ :
        BUBState Nat Nat).stats.buffer = 0 ∧
      (⟨[], false, [], [], [[1]], 0, false, 1, ⟨0, 4, 0, 2, 0, 2⟩, []⟩ :
          BUBState Nat Nat).stats.parallel = 0) :=
  ⟨claim_C9.1 Nat Nat ⟨4, 2⟩
      ⟨[], false, [], 0, false, 1, ⟨0, 4, 0, 2⟩, []⟩
      ⟨[.trySend 5, .pull, .complete 0 (.done (.ok ())) true], by decide⟩
      rfl rfl,
    claim_C9.2 Nat Nat ⟨4, 2, 2, true⟩
      ⟨[], false, [], [], [[1]], 0, false, 1, ⟨0, 4, 0, 2, 0, 2⟩, []⟩
      ⟨[.trySend 1, .pull, .formGroup, .complete 0 (.done (.ok ())) true],
        by decide⟩
      rfl rfl⟩

/-- C10: in both poller variants a unit (or the finalize task) that fails at
the join level (e.g. the spawn_blocking closure panicked) is silently
discarded: no error-class message is forwarded to the bus, the `parallel`
counter is still decremented for a completed unit, the finalize hook is still
marked as having run, and drain/exit proceed normally. -/
theorem claim_C10 :
    (∀ (M E : Type) (cfg : BufferUnorderedConfig) (s s' : BUState M E)
        (i : Nat) (b : Bool),
      BUReaches cfg s →
        (BUStep cfg (.complete i (.panicked : JoinRes E) b) s = some s' →
          s'.errors = s.errors ∧
          s.stats.parallel = s'.stats.parallel + 1 ∧
          s'.inflight = s.inflight.eraseIdx i ∧
          s'.queue = s.queue ∧ s'.syncCalls = s.syncCalls ∧
          s'.exited = s.exited) ∧
        (BUStep cfg (.finalize (.panicked : JoinRes E) b) s = some s' →
          s'.errors = s.errors ∧ s'.syncCalls = 1 ∧
          (BUStep cfg (.exitEv : BULabel M E) s').isSome = true)) ∧
    (∀ (M E : Type) (cfg : BufferUnorderedBatchedConfig)
        (s s' : BUBState M E) (i : Nat) (b : Bool),
      BUBReaches cfg s →
        (BUBStep cfg (.complete i (.panicked : JoinRes E) b) s = some s' →
          s'.errors = s.errors ∧
          s.stats.parallel = s'.stats.parallel + 1 ∧
          s'.inflight = s.inflight.eraseIdx i ∧
          s'.queue = s.queue ∧ s'.syncCalls = s.syncCalls ∧
          s'.exited = s.exited) ∧
        (BUBStep cfg (.finalize (.panicked : JoinRes E) b) s = some s' →
          s'.errors = s.errors ∧ s'.syncCalls = 1 ∧
          (BUBStep cfg (.exitEv : BUBLabel M E) s').isSome = true)) := by
  constructor
  · intro M E cfg s s' i b hs
    have hI := bu_reaches_inv hs
    constructor
    · intro h
      obtain ⟨hi, hs'⟩ := bu_complete_elim h
      have hp : s.stats.parallel = s.inflight.length := hI.parallel_eq
      refine ⟨by rw [hs']; rfl, ?_, by rw [hs'], by rw [hs'], by rw [hs'],
        by rw [hs']⟩
      rw [hs']
      simp only
      omega
    · intro h
      obtain ⟨hc, hqe, hin, hsy, hs'⟩ := bu_finalize_elim h
      have hex : s.exited = false := by
        cases hexv : s.exited with
        | false => rfl
        | true => rw [hI.exited_sync hexv] at hsy; cases hsy
      refine ⟨by rw [hs']; rfl, by rw [hs'], ?_⟩
      rw [hs']
      simp [BUStep, hex]
  · intro M E cfg s s' i b hs
    have hI := bub_reaches_inv hs
    constructor
    · intro h
      obtain ⟨hi, hs'⟩ := bub_complete_elim h
      have hp : s.stats.parallel = s.inflight.length := hI.parallel_eq
      refine ⟨by rw [hs']; rfl, ?_, by rw [hs'], by rw [hs'], by rw [hs'],
        by rw [hs']⟩
      rw [hs']
      simp only
      omega
    · intro h
      obtain ⟨hc, hqe, hacc, hin, hsy, hs'⟩ := bub_finalize_elim h
      have hex : s.exited = false := by
        cases hexv : s.exited with
        | false => rfl
        | true => rw [hI.exited_sync hexv] at hsy; cases hsy
      refine ⟨by rw [hs']; rfl, by rw [hs'], ?_⟩
      rw [hs']
      simp [BUBStep, hex]

theorem claim_C10_witness :
    (⟨[], true, [], 0, false, 1, ⟨0, 4, 0, 2⟩, []⟩ :
        BUState Nat Nat).errors =
      (⟨[], true, [7], 0, false, 1, ⟨0, 4, 1, 2⟩, []⟩ :
          BUState Nat Nat).errors ∧
    (⟨[], true, [7], 0, false, 1, ⟨0, 4, 1, 2⟩, []⟩ :
        BUState Nat Nat).stats.parallel =
      (⟨[], true, [], 0, false, 1, ⟨0, 4, 0, 2⟩, []⟩ :
          BUState Nat Nat).stats.parallel + 1 ∧
    (⟨[], true, [], 1, false, 1, ⟨0, 4, 0, 2⟩, []⟩ :
        BUState Nat Nat).syncCalls = 1 ∧
    (BUStep ⟨4, 2⟩ (.exitEv : BULabel Nat Nat)
        ⟨[], true, [], 1, false, 1, ⟨0, 4, 0, 2⟩, []⟩).isSome = true := by
  have hcomp := ((claim_C10.1 Nat Nat ⟨4, 2⟩
    ⟨[], true, [7], 0, false, 1, ⟨0, 4, 1, 2⟩, []⟩
    ⟨[], true, [], 0, false, 1, ⟨0, 4, 0, 2⟩, []⟩ 0 true
    ⟨[.trySend 7, .close, .pull], by decide⟩).1 (by decide))
  have hfin := ((claim_C10.1 Nat Nat ⟨4, 2⟩
    ⟨[], true, [], 0, false, 1, ⟨0, 4, 0, 2⟩, []⟩
    ⟨[], true, [], 1, false, 1, ⟨0, 4, 0, 2⟩, []⟩ 0 true
    ⟨[.trySend 7, .close, .pull, .complete 0 .panicked true],
      by decide⟩).2 (by decide))
  exact ⟨hcomp.1, hcomp.2.1, hfin.2.1, hfin.2.2⟩

end Messagebus
